import Mathlib

/-!
Shallow embedding of the synchronization core of `voiceink-to-notion`
(files `sync_tracker.py`, `main.py` (`sync_command` / `do_sync`),
`notion_client.py` (`create_transcription_page`), `voiceink_reader.py`
(`read_transcriptions` id derivation)), together with theorems checking the
natural-language specification against it.

Modelling conventions:
- Python strings are Lean `String` (a wrapper around `List Char`); where
  character-level slicing matters (`text[:2000]`, id dashing) we work on
  `List Char` directly, matching Python's code-point slicing.
- `datetime` values are abstract instants modelled as `Nat`;
  `datetime.isoformat` is modelled as the decimal rendering of that `Nat`
  and `datetime.fromisoformat` as the (partial) decimal parser, preserving
  the algebra that matters: the rendering is injective and never empty,
  parsing inverts it, and parsing an arbitrary string can fail
  (raising `ValueError` in Python).
- Python `set[str]` is `Finset String`.
- `float` durations are carried opaquely as `Rat`; Python's
  `round(duration, 2)` is not modelled (no claim depends on its value).
- Fallible Python code is modelled with `Except PyError`; an `Except.error`
  is an uncaught Python exception escaping the modelled function.
- Network effects are oracles passed in as parameters: the n-th HTTP POST
  outcome for `create_transcription_page`, a per-record success bit for the
  engine's upload calls, and the fetched id set for the bootstrap.
-/

namespace VSync

/-! ### Decimal rendering / parsing (model of `str(n)` / ISO timestamps) -/

def digitChar (d : Nat) : Char := Char.ofNat (48 + d)

def charVal (c : Char) : Option Nat :=
  if 48 ≤ c.toNat ∧ c.toNat ≤ 57 then some (c.toNat - 48) else none

/-- Decimal rendering of a natural number, most significant digit first;
models Python `str(n)` for `n : int ≥ 0` and the ISO rendering of an
abstract timestamp. -/
def natToDec (n : Nat) : List Char :=
  if n = 0 then ['0'] else ((Nat.digits 10 n).map digitChar).reverse

def decStep (acc : Option Nat) (c : Char) : Option Nat :=
  match acc, charVal c with
  | some a, some d => some (a * 10 + d)
  | _, _ => none

/-- Partial decimal parser; models the parsing side of
`datetime.fromisoformat` on the strings produced by `isoformat`. -/
def decToNat (cs : List Char) : Option Nat :=
  if cs.isEmpty then none else cs.foldl decStep (some 0)

/-! ### JSON values and Python dynamic-semantics helpers -/

/-- A parsed JSON value, as produced by `json.loads`. -/
inductive JValue where
  | jnull
  | jbool (b : Bool)
  | jnum (n : Int)
  | jstr (s : String)
  | jarr (elems : List JValue)
  | jobj (fields : List (String × JValue))

/-- Uncaught Python exceptions that can escape the modelled functions. -/
inductive PyError where
  | attributeError
  | typeError
  | valueError
deriving DecidableEq

/-- Python truthiness of a JSON value. -/
def JValue.truthy : JValue → Bool
  | .jnull => false
  | .jbool b => b
  | .jnum n => n != 0
  | .jstr s => !s.data.isEmpty
  | .jarr l => !l.isEmpty
  | .jobj l => !l.isEmpty

/-- Model of `data.get(key, default)` on a dict produced by `json.loads`
(duplicate keys: last one wins, as in CPython's `json`). -/
def pyGet (fields : List (String × JValue)) (key : String) (dflt : JValue) : JValue :=
  match fields.reverse.find? (fun p => p.1 == key) with
  | some p => p.2
  | none => dflt

def jstrElems : List JValue → Except PyError (List String)
  | [] => .ok []
  | .jstr s :: rest => (jstrElems rest).map (fun l => s :: l)
  | _ :: _ => .error .typeError

/-- Model of Python `set(x)` specialised to string sets. `set` of a list of
strings collects them; `set` of a string is its characters as one-char
strings; `set` of a dict is its key set; `set` of `None`/a number/a bool
raises `TypeError`. A list containing an unhashable element (list/dict)
raises `TypeError`; a hashable non-string element (number/bool/None) would
in Python be admitted into the set — that case is collapsed to `typeError`
here, which no claim exercises (the saved format only ever contains
strings). -/
def pySet : JValue → Except PyError (Finset String)
  | .jarr elems => (jstrElems elems).map List.toFinset
  | .jstr s => .ok ((s.data.map (fun c => String.mk [c])).toFinset)
  | .jobj fields => .ok ((fields.map (fun p => p.1)).toFinset)
  | _ => .error .typeError

/-- Model of `datetime.fromisoformat(x)`: `TypeError` on a non-string,
`ValueError` on a string that does not parse. -/
def fromisoformat (v : JValue) : Except PyError Nat :=
  match v with
  | .jstr s =>
    match decToNat s.data with
    | some t => .ok t
    | none => .error .valueError
  | _ => .error .typeError

/-! ### `sync_tracker.py`: `SyncState` and the state store -/

structure SyncState where
  synced_ids : Finset String
  last_sync_time : Option Nat
  notion_cache_populated : Bool
deriving DecidableEq

def emptyState : SyncState := ⟨∅, none, false⟩

/-- `SyncState.mark_synced`: add the id and set `last_sync_time` to the
current clock value. -/
def markSynced (st : SyncState) (voiceink_id : String) (now : Nat) : SyncState :=
  { st with synced_ids := insert voiceink_id st.synced_ids, last_sync_time := some now }

/-- `SyncState.is_synced`. -/
def isSynced (st : SyncState) (voiceink_id : String) : Bool :=
  decide (voiceink_id ∈ st.synced_ids)

/-- `SyncState.merge_notion_ids`. -/
def mergeNotionIds (st : SyncState) (notion_ids : Finset String) : SyncState :=
  { st with synced_ids := st.synced_ids ∪ notion_ids, notion_cache_populated := true }

/-- Content of the state file as seen by `load_sync_state`. -/
inductive FileContent where
  | absent
  | notJson (raw : String)
  | json (v : JValue)

/-- `load_sync_state`: absent file or a `json.JSONDecodeError` (and the dead
`KeyError` arm) fall back to the empty default state; after a successful
parse the fields are read with `.get`, so a non-dict top level raises
`AttributeError`, ill-typed `synced_ids` raises `TypeError`, and a truthy
but unparsable `last_sync_time` raises `ValueError` — none of which the
`except (json.JSONDecodeError, KeyError)` clause catches. -/
def load_sync_state : FileContent → Except PyError SyncState
  | .absent => .ok emptyState
  | .notJson _ => .ok emptyState
  | .json v =>
    match v with
    | .jobj fields =>
      match pySet (pyGet fields "synced_ids" (.jarr [])) with
      | .error e => .error e
      | .ok ids =>
        let cacheB := (pyGet fields "notion_cache_populated" (.jbool false)).truthy
        let lst := pyGet fields "last_sync_time" .jnull
        if lst.truthy then
          match fromisoformat lst with
          | .error e => .error e
          | .ok t => .ok ⟨ids, some t, cacheB⟩
        else .ok ⟨ids, none, cacheB⟩
    | _ => .error .attributeError

/-- `save_sync_state`: the JSON object written to the state file.
Python writes `list(state.synced_ids)` in an unspecified order; the model
picks the sorted enumeration (any enumeration of the set is a faithful
refinement, and only the resulting set is ever read back). -/
def save_sync_state (st : SyncState) : JValue :=
  .jobj [("synced_ids", .jarr ((st.synced_ids.sort (· ≤ ·)).map (fun s => .jstr s))),
         ("last_sync_time",
           match st.last_sync_time with
           | some t => .jstr (String.mk (natToDec t))
           | none => .jnull),
         ("notion_cache_populated", .jbool st.notion_cache_populated)]

/-! ### `voiceink_reader.py`: record id derivation -/

/-- Id derivation in `read_transcriptions`:
`record_id = row["ZID_HEX"] or str(row["Z_PK"])`, then a 32-character id is
reformatted into the dashed 8-4-4-4-12 form. `zid_hex = none` models a NULL
`ZID`; an empty hex string also falls back (Python `or` truthiness). -/
def formatRecordId (zid_hex : Option (List Char)) (z_pk : Nat) : List Char :=
  let record_id :=
    match zid_hex with
    | some h => if h.isEmpty then natToDec z_pk else h
    | none => natToDec z_pk
  if record_id.length = 32 then
    record_id.take 8 ++ '-' :: (record_id.drop 8).take 4 ++ '-' :: (record_id.drop 12).take 4
      ++ '-' :: (record_id.drop 16).take 4 ++ '-' :: record_id.drop 20
  else record_id

/-- One transcription record as read from the VoiceInk database. -/
structure Transcription where
  id : String
  text : List Char
  enhanced_text : Option (List Char)
  timestamp : Nat
  duration : Rat
  prompt_name : Option String
  power_mode_name : Option String
deriving DecidableEq

/-! ### `notion_client.py`: `create_transcription_page` -/

/-- Title building: `text[:100] + "..." if len(text) > 100 else text`. -/
def buildTitle (text : List Char) : List Char :=
  if text.length > 100 then text.take 100 ++ "...".data else text

/-- The `while remaining_text:` loop: split into consecutive chunks of at
most 2000 code units. -/
def chunkText (s : List Char) : List (List Char) :=
  if h : s.isEmpty then []
  else s.take 2000 :: chunkText (s.drop 2000)
termination_by s.length
decreasing_by
  have hne : s ≠ [] := by
    intro he
    rw [he] at h
    exact h rfl
  have hl : 0 < s.length := List.length_pos.mpr hne
  simp only [List.length_drop]
  omega

/-- A content block of the page body. -/
inductive Block where
  | paragraph (chunk : List Char)
  | heading2 (content : List Char)
deriving DecidableEq

/-- The `children` list: paragraph blocks for the text chunks, then — when
`enhanced_text` is truthy — an "Enhanced Version" heading followed by the
enhanced-text chunks. -/
def buildChildren (text : List Char) (enhanced_text : Option (List Char)) : List Block :=
  (chunkText text).map .paragraph ++
    (match enhanced_text with
     | some e =>
       if e.isEmpty then []
       else .heading2 "Enhanced Version".data :: (chunkText e).map .paragraph
     | none => [])

/-- One named property of the page payload. `round(duration, 2)` is not
modelled: the duration is carried through opaquely. -/
inductive PageProp where
  | titleProp (name : String) (content : List Char)
  | textProp (content : List Char)
  | timestampProp (t : Nat)
  | durationProp (d : Rat)
  | voiceinkIdProp (voiceink_id : String)
deriving DecidableEq

/-- The full property set: title, `Text` truncated to 2000 units,
`Timestamp`, `Duration`, and `VoiceInk ID` when the id is truthy. -/
def fullProperties (titleProperty : String) (text : List Char) (timestamp : Nat)
    (duration : Rat) (voiceink_id : Option String) : List PageProp :=
  [.titleProp titleProperty (buildTitle text),
   .textProp (text.take 2000),
   .timestampProp timestamp,
   .durationProp duration] ++
    (match voiceink_id with
     | some vid => if vid.data.isEmpty then [] else [.voiceinkIdProp vid]
     | none => [])

/-- An HTTP POST body sent to `/pages`. -/
structure Payload where
  database_id : String
  properties : List PageProp
  children : List Block
deriving DecidableEq

/-- The first POST body: full property set, children capped at 100 blocks. -/
def fullPayload (database_id titleProperty : String) (text : List Char) (timestamp : Nat)
    (duration : Rat) (enhanced_text : Option (List Char)) (voiceink_id : Option String) :
    Payload :=
  ⟨database_id, fullProperties titleProperty text timestamp duration voiceink_id,
    (buildChildren text enhanced_text).take 100⟩

/-- The retry POST body: title property only, same capped children. -/
def minimalPayload (database_id titleProperty : String) (text : List Char)
    (enhanced_text : Option (List Char)) : Payload :=
  ⟨database_id, [.titleProp titleProperty (buildTitle text)],
    (buildChildren text enhanced_text).take 100⟩

/-- Outcome of one `self._client.post` call, as an oracle value. -/
inductive PostOutcome where
  | ok
  | badStatus
  | netError
deriving DecidableEq

/-- `create_transcription_page`: first POST with the full property set; on a
non-200 status, one retry with the minimal payload (title property only,
same children). A transport exception (`httpx.HTTPError`) anywhere jumps to
the `except` clause, so an exception on the *first* POST skips the retry.
Returns the result (`None` modelled as `none`) together with the list of
payloads actually POSTed, in order. `post k` is the outcome of the k-th
POST attempt. -/
def create_transcription_page (post : Nat → PostOutcome) (database_id titleProperty : String)
    (text : List Char) (timestamp : Nat) (duration : Rat)
    (enhanced_text : Option (List Char)) (_prompt_name : Option String)
    (voiceink_id : Option String) : Option Unit × List Payload :=
  let full := fullPayload database_id titleProperty text timestamp duration enhanced_text voiceink_id
  let minimal := minimalPayload database_id titleProperty text enhanced_text
  match post 0 with
  | .ok => (some (), [full])
  | .badStatus =>
    match post 1 with
    | .ok => (some (), [full, minimal])
    | .badStatus => (none, [full, minimal])
    | .netError => (none, [full, minimal])
  | .netError => (none, [full])

/-! ### `main.py`: the reconciliation engine (`do_sync` and the bootstrap) -/

/-- Observable events of one sync cycle, in order. -/
inductive Event where
  | uploaded (voiceink_id : String) (success : Bool)
  | saved (st : SyncState)
deriving DecidableEq

structure CycleOut where
  state : SyncState
  count : Nat
  events : List Event
deriving DecidableEq

/-- The `for t in unsynced:` drain loop of `do_sync`. `upload k` is the
truthiness of the result of the upload of the k-th unsynced record;
`clock k` is `datetime.now()` at that point. On success the id is marked
synced and the state saved immediately; on failure the loop continues. -/
def drainLoop (upload : Nat → Bool) (clock : Nat → Nat) :
    List Transcription → SyncState → Nat → Nat → CycleOut
  | [], st, _, count => ⟨st, count, []⟩
  | t :: rest, st, idx, count =>
    if upload idx then
      let st2 := markSynced st t.id (clock idx)
      let out := drainLoop upload clock rest st2 (idx + 1) (count + 1)
      ⟨out.state, out.count, .uploaded t.id true :: .saved st2 :: out.events⟩
    else
      let out := drainLoop upload clock rest st idx.succ count
      ⟨out.state, out.count, .uploaded t.id false :: out.events⟩

/-- Outcome of `read_transcriptions(db_path)` inside `do_sync`. -/
inductive ReadOutcome where
  | ok (transcriptions : List Transcription)
  | err

/-- `do_sync`: on a read error return 0 synced; otherwise filter out the
already-synced records and drain. (The early `return 0` when `unsynced` is
empty coincides with draining the empty list.) -/
def do_sync (read : ReadOutcome) (upload : Nat → Bool) (clock : Nat → Nat)
    (st : SyncState) : CycleOut :=
  match read with
  | .err => ⟨st, 0, []⟩
  | .ok ts =>
    let unsynced := ts.filter (fun t => !(isSynced st t.id))
    drainLoop upload clock unsynced st 0 0

/-- Observable events of the bootstrap step. -/
inductive BootEvent where
  | fetchedRemoteIds
  | saved (st : SyncState)
deriving DecidableEq

/-- The bootstrap step of `sync_command` (before any cycle): when the cache
flag is unset, fetch the remote ids; when the fetched set is truthy
(non-empty), merge it and save immediately. -/
def bootstrap (st : SyncState) (notion_ids : Finset String) : SyncState × List BootEvent :=
  if st.notion_cache_populated then (st, [])
  else if notion_ids = ∅ then (st, [.fetchedRemoteIds])
  else
    let st2 := mergeNotionIds st notion_ids
    (st2, [.fetchedRemoteIds, .saved st2])

/-- Ids of the records for which an upload was attempted, in order. -/
def uploadedIds (evs : List Event) : List String :=
  evs.filterMap (fun e => match e with | .uploaded i _ => some i | .saved _ => none)

/-- A state file whose JSON parses to a well-formed object except that
`last_sync_time` holds a string `datetime.fromisoformat` rejects. -/
def corruptTimestampFile : FileContent :=
  .json (.jobj [("synced_ids", .jarr []),
                ("last_sync_time", .jstr "not-a-timestamp"),
                ("notion_cache_populated", .jbool false)])

/-- Three concrete unsynced records for the partial-failure scenario. -/
def recA : Transcription := ⟨"a", ['x'], none, 0, 0, none, none⟩

def recB : Transcription := ⟨"b", ['y'], none, 0, 0, none, none⟩

def recC : Transcription := ⟨"c", ['z'], none, 0, 0, none, none⟩

/-- Write-then-proceed discipline over a cycle's event trace, relative to
the set `persisted` of ids already persisted by this cycle: every
successful upload is immediately followed by a save whose state contains
that id and every previously persisted id, failed uploads save nothing, and
no save occurs anywhere else. -/
def goodTrace (persisted : Finset String) : List Event → Prop
  | [] => True
  | .uploaded i true :: .saved st :: rest =>
    i ∈ st.synced_ids ∧ persisted ⊆ st.synced_ids ∧ goodTrace (insert i persisted) rest
  | .uploaded _ false :: rest => goodTrace persisted rest
  | _ => False

/-! ## Theorems -/

theorem charVal_digitChar : ∀ d : Nat, d < 10 → charVal (digitChar d) = some d := by decide

theorem foldl_decStep (L : List Nat) (hL : ∀ d ∈ L, d < 10) (a : Nat) :
    ((L.map digitChar).reverse).foldl decStep (some a) =
      some (a * 10 ^ L.length + Nat.ofDigits 10 L) := by
  induction L generalizing a with
  | nil => simp [Nat.ofDigits]
  | cons d t ih =>
    have hd : d < 10 := hL d (List.mem_cons_self d t)
    have ht : ∀ x ∈ t, x < 10 := fun x hx => hL x (List.mem_cons_of_mem d hx)
    simp only [List.map_cons, List.reverse_cons, List.foldl_append, ih ht a,
      List.foldl_cons, List.foldl_nil]
    simp only [decStep, charVal_digitChar d hd, Nat.ofDigits_cons, Nat.cast_id,
      List.length_cons, Option.some.injEq]
    ring

theorem natToDec_ne_nil (n : Nat) : natToDec n ≠ [] := by
  unfold natToDec
  split
  · simp
  · next h =>
    simp only [ne_eq, List.reverse_eq_nil_iff, List.map_eq_nil_iff]
    exact Nat.digits_ne_nil_iff_ne_zero.mpr h

theorem natToDec_isEmpty (n : Nat) : (natToDec n).isEmpty = false := by
  have := natToDec_ne_nil n
  cases h : natToDec n with
  | nil => exact absurd h this
  | cons c cs => rfl

theorem decToNat_natToDec (n : Nat) : decToNat (natToDec n) = some n := by
  by_cases h : n = 0
  · subst h; rfl
  · unfold decToNat natToDec
    simp only [if_neg h, natToDec_isEmpty]
    rw [show (((Nat.digits 10 n).map digitChar).reverse).isEmpty = false by
      have h2 := natToDec_isEmpty n
      unfold natToDec at h2
      rwa [if_neg h] at h2]
    simp only [Bool.false_eq_true, if_false]
    rw [foldl_decStep _ (fun d hd => Nat.digits_lt_base (by norm_num) hd) 0]
    simp [Nat.ofDigits_digits]

theorem jstrElems_map (l : List String) : jstrElems (l.map .jstr) = .ok l := by
  induction l with
  | nil => rfl
  | cons s t ih => simp [jstrElems, ih, Except.map]

theorem pySet_save (s : Finset String) :
    pySet (.jarr ((s.sort (· ≤ ·)).map (fun x => .jstr x))) = .ok s := by
  simp only [pySet, jstrElems_map, Except.map]
  congr 1
  ext a
  simp [Finset.mem_sort]

theorem pyGet_field₁ (a b c d : JValue) :
    pyGet [("synced_ids", a), ("last_sync_time", b), ("notion_cache_populated", c)]
      "synced_ids" d = a := rfl

theorem pyGet_field₂ (a b c d : JValue) :
    pyGet [("synced_ids", a), ("last_sync_time", b), ("notion_cache_populated", c)]
      "last_sync_time" d = b := rfl

theorem pyGet_field₃ (a b c d : JValue) :
    pyGet [("synced_ids", a), ("last_sync_time", b), ("notion_cache_populated", c)]
      "notion_cache_populated" d = c := rfl

theorem truthy_iso_str (t : Nat) : (JValue.jstr (String.mk (natToDec t))).truthy = true := by
  simp [JValue.truthy, natToDec_isEmpty]

theorem fromisoformat_iso (t : Nat) :
    fromisoformat (.jstr (String.mk (natToDec t))) = .ok t := by
  show (match decToNat (natToDec t) with
        | some x => Except.ok x
        | none => Except.error PyError.valueError) = Except.ok t
  rw [decToNat_natToDec]

/-- C10: save/load round trip — loading the exact JSON object that
`save_sync_state` writes reproduces the state: same id set, same cache
flag, same `last_sync_time` (also when absent). -/
theorem save_load_round_trip (st : SyncState) :
    load_sync_state (.json (save_sync_state st)) = .ok st := by
  obtain ⟨ids, lst, cache⟩ := st
  cases lst with
  | none =>
    show load_sync_state (.json (.jobj
      [("synced_ids", .jarr ((ids.sort (· ≤ ·)).map (fun s => .jstr s))),
       ("last_sync_time", .jnull),
       ("notion_cache_populated", .jbool cache)])) = _
    simp only [load_sync_state, pyGet_field₁, pyGet_field₂, pyGet_field₃, pySet_save]
    rfl
  | some t =>
    show load_sync_state (.json (.jobj
      [("synced_ids", .jarr ((ids.sort (· ≤ ·)).map (fun s => .jstr s))),
       ("last_sync_time", .jstr (String.mk (natToDec t))),
       ("notion_cache_populated", .jbool cache)])) = _
    simp only [load_sync_state, pyGet_field₁, pyGet_field₂, pyGet_field₃, pySet_save,
      truthy_iso_str, fromisoformat_iso, if_true]
    rfl

/-- C5 (evaluation at the failing input): an absent file and unparsable
text do fall back to the empty default state, but a state file whose JSON
is fine while `last_sync_time` is an unparsable string makes
`load_sync_state` raise `ValueError` from `datetime.fromisoformat` —
the `except (json.JSONDecodeError, KeyError)` clause does not catch it. -/
theorem load_sync_state_corrupt_behaviour :
    load_sync_state .absent = .ok emptyState ∧
    load_sync_state (.notJson "certainly not json") = .ok emptyState ∧
    load_sync_state corruptTimestampFile = .error .valueError :=
  ⟨rfl, rfl, rfl⟩

theorem drainLoop_mono (upload : Nat → Bool) (clock : Nat → Nat) :
    ∀ (l : List Transcription) (st : SyncState) (idx count : Nat),
      st.synced_ids ⊆ (drainLoop upload clock l st idx count).state.synced_ids := by
  intro l
  induction l with
  | nil => intro st idx count; exact Finset.Subset.refl _
  | cons t rest ih =>
    intro st idx count
    simp only [drainLoop]
    split
    · exact (Finset.subset_insert t.id st.synced_ids).trans
        (ih (markSynced st t.id (clock idx)) (idx + 1) (count + 1))
    · exact ih st idx.succ count

theorem drainLoop_uploaded_mem (upload : Nat → Bool) (clock : Nat → Nat) :
    ∀ (l : List Transcription) (st : SyncState) (idx count : Nat) (i : String) (b : Bool),
      Event.uploaded i b ∈ (drainLoop upload clock l st idx count).events →
        i ∈ l.map Transcription.id := by
  intro l
  induction l with
  | nil => intro st idx count i b h; simp [drainLoop] at h
  | cons t rest ih =>
    intro st idx count i b h
    simp only [drainLoop] at h
    split at h
    · simp only [List.mem_cons] at h
      rcases h with h1 | h2 | h3
      · cases h1; simp
      · cases h2
      · exact List.mem_cons_of_mem _ (ih _ _ _ _ _ h3)
    · simp only [List.mem_cons] at h
      rcases h with h1 | h2
      · cases h1; simp
      · exact List.mem_cons_of_mem _ (ih _ _ _ _ _ h2)

/-- C1: no duplicate uploads — a record whose id is in `synced_ids` at the
start of the cycle is never the subject of an upload call during the cycle
(the drain loop only uploads records whose ids were unsynced at the diff). -/
theorem no_duplicate_uploads (read : ReadOutcome) (upload : Nat → Bool) (clock : Nat → Nat)
    (st : SyncState) (i : String) (h : i ∈ st.synced_ids) (b : Bool) :
    Event.uploaded i b ∉ (do_sync read upload clock st).events := by
  cases read with
  | err => simp [do_sync]
  | ok ts =>
    intro hmem
    have hmap := drainLoop_uploaded_mem upload clock _ _ _ _ _ _ hmem
    simp only [List.mem_map, List.mem_filter] at hmap
    obtain ⟨tr, ⟨_, hfilt⟩, hid⟩ := hmap
    rw [hid] at hfilt
    simp only [isSynced, Bool.not_eq_true', decide_eq_false_iff_not] at hfilt
    exact hfilt h

theorem no_duplicate_uploads_witness :
    "a" ∈ (SyncState.mk {"a"} none false).synced_ids ∧
    Event.uploaded "a" true ∉
      (do_sync (.ok [recA]) (fun _ => true) (fun _ => 0) (SyncState.mk {"a"} none false)).events :=
  ⟨by decide,
   no_duplicate_uploads (.ok [recA]) (fun _ => true) (fun _ => 0)
     (SyncState.mk {"a"} none false) "a" (by decide) true⟩

/-- C2: partial failure isolation — with three unsynced records where the
second upload fails and the others succeed, the cycle returns 2, the final
state contains the first and third ids but not the second, and all three
records still get an upload attempt (the failure aborts nothing). -/
theorem partial_failure_isolation :
    (do_sync (.ok [recA, recB, recC]) (fun k => k != 1) (fun _ => 0) emptyState).count = 2 ∧
    "a" ∈ (do_sync (.ok [recA, recB, recC]) (fun k => k != 1) (fun _ => 0)
      emptyState).state.synced_ids ∧
    "c" ∈ (do_sync (.ok [recA, recB, recC]) (fun k => k != 1) (fun _ => 0)
      emptyState).state.synced_ids ∧
    "b" ∉ (do_sync (.ok [recA, recB, recC]) (fun k => k != 1) (fun _ => 0)
      emptyState).state.synced_ids ∧
    uploadedIds (do_sync (.ok [recA, recB, recC]) (fun k => k != 1) (fun _ => 0)
      emptyState).events = ["a", "b", "c"] := by
  refine ⟨rfl, by decide, by decide, by decide, rfl⟩

theorem drainLoop_goodTrace (upload : Nat → Bool) (clock : Nat → Nat) :
    ∀ (l : List Transcription) (st : SyncState) (idx count : Nat) (acc : Finset String),
      acc ⊆ st.synced_ids → goodTrace acc (drainLoop upload clock l st idx count).events := by
  intro l
  induction l with
  | nil => intro st idx count acc _; trivial
  | cons t rest ih =>
    intro st idx count acc hacc
    simp only [drainLoop]
    split
    · refine ⟨Finset.mem_insert_self _ _, hacc.trans (Finset.subset_insert _ _), ?_⟩
      exact ih _ _ _ _ (Finset.insert_subset_insert _ hacc)
    · exact ih _ _ _ _ hacc

/-- C3: write-then-proceed — in every cycle's event trace, each successful
upload is immediately followed by a save whose persisted state contains
that id and every id persisted earlier in the cycle; failed uploads persist
nothing and saves occur nowhere else (no batched or deferred writes). -/
theorem per_record_durability (read : ReadOutcome) (upload : Nat → Bool) (clock : Nat → Nat)
    (st : SyncState) : goodTrace ∅ (do_sync read upload clock st).events := by
  cases read with
  | err => trivial
  | ok ts => exact drainLoop_goodTrace upload clock _ _ _ _ _ (Finset.empty_subset _)

/-- C7: `synced_ids` only grows — `mark_synced`, `merge_notion_ids` and a
whole sync cycle each map the id set to a superset; nothing is evicted. -/
theorem synced_ids_monotone :
    (∀ (st : SyncState) (i : String) (now : Nat),
      st.synced_ids ⊆ (markSynced st i now).synced_ids) ∧
    (∀ (st : SyncState) (ids : Finset String),
      st.synced_ids ⊆ (mergeNotionIds st ids).synced_ids) ∧
    (∀ (read : ReadOutcome) (upload : Nat → Bool) (clock : Nat → Nat) (st : SyncState),
      st.synced_ids ⊆ (do_sync read upload clock st).state.synced_ids) := by
  refine ⟨fun st i now => Finset.subset_insert _ _,
          fun st ids => Finset.subset_union_left,
          fun read upload clock st => ?_⟩
  cases read with
  | err => exact Finset.Subset.refl _
  | ok ts => exact drainLoop_mono upload clock _ _ _ _

/-- C4: cache bootstrap — when the cache flag is unset the remote id listing
is fetched; a non-empty result is unioned into `synced_ids`, the flag is set
and the merged state saved immediately (no local records are involved at
all); an empty result leaves the state unchanged with the flag still unset. -/
theorem bootstrap_merge (st : SyncState) (ids : Finset String)
    (h : st.notion_cache_populated = false) :
    BootEvent.fetchedRemoteIds ∈ (bootstrap st ids).2 ∧
    (ids ≠ ∅ →
      (bootstrap st ids).1.synced_ids = st.synced_ids ∪ ids ∧
      (bootstrap st ids).1.notion_cache_populated = true ∧
      BootEvent.saved (bootstrap st ids).1 ∈ (bootstrap st ids).2) ∧
    (ids = ∅ →
      (bootstrap st ids).1 = st ∧
      (bootstrap st ids).1.notion_cache_populated = false) := by
  by_cases hids : ids = ∅
  · subst hids
    simp [bootstrap, h]
  · simp [bootstrap, h, hids, mergeNotionIds]

theorem bootstrap_merge_witness :
    emptyState.notion_cache_populated = false ∧
    (({"A", "B"} : Finset String) ≠ ∅ ∧
      ((bootstrap emptyState {"A", "B"}).1.synced_ids = emptyState.synced_ids ∪ {"A", "B"} ∧
       (bootstrap emptyState {"A", "B"}).1.notion_cache_populated = true ∧
       BootEvent.saved (bootstrap emptyState {"A", "B"}).1 ∈ (bootstrap emptyState {"A", "B"}).2)) :=
  ⟨rfl, by decide, (bootstrap_merge emptyState {"A", "B"} rfl).2.1 (by decide)⟩

/-- C6 counterexample: a transport exception on the very first POST (here
the oracle makes every POST raise) reports failure with only ONE payload
ever posted — no retry with the minimal property set is attempted, refuting
"whenever uploading with the full property set fails for any reason, the
upload operation attempts exactly one retry". -/
theorem upload_retry_counterexample :
    (create_transcription_page (fun _ => .netError) "db" "Name" "hi".data 3 1 none none
      (some "vid")).1 = none ∧
    ((create_transcription_page (fun _ => .netError) "db" "Name" "hi".data 3 1 none none
      (some "vid")).2).length = 1 :=
  ⟨rfl, rfl⟩

theorem drainLoop_all_attempted (upload : Nat → Bool) (clock : Nat → Nat) :
    ∀ (l : List Transcription) (st : SyncState) (idx count : Nat),
      uploadedIds (drainLoop upload clock l st idx count).events = l.map Transcription.id := by
  intro l
  induction l with
  | nil => intro st idx count; rfl
  | cons t rest ih =>
    intro st idx count
    simp only [drainLoop]
    split
    · simp only [uploadedIds, List.filterMap_cons, List.map_cons] at ih ⊢
      rw [ih]
    · simp only [uploadedIds, List.filterMap_cons, List.map_cons] at ih ⊢
      rw [ih]

/-- C6 amended: when the first POST returns an error *response*, exactly one
retry is made, with the minimal property set (title plus the same content
blocks only), and failure is reported as a value iff the retry also fails;
when the first POST raises a transport exception, failure is reported as a
value with NO retry; in every case the engine's drain loop attempts an
upload for every unsynced record regardless of earlier failures. -/
theorem upload_retry_amended (post : Nat → PostOutcome) (database_id titleProperty : String)
    (text : List Char) (timestamp : Nat) (duration : Rat)
    (enhanced_text : Option (List Char)) (pn : Option String) (voiceink_id : Option String) :
    (post 0 = .badStatus →
      (create_transcription_page post database_id titleProperty text timestamp duration
        enhanced_text pn voiceink_id).2 =
        [fullPayload database_id titleProperty text timestamp duration enhanced_text voiceink_id,
         minimalPayload database_id titleProperty text enhanced_text] ∧
      (minimalPayload database_id titleProperty text enhanced_text).properties =
        [.titleProp titleProperty (buildTitle text)] ∧
      ((create_transcription_page post database_id titleProperty text timestamp duration
          enhanced_text pn voiceink_id).1 = some () ↔ post 1 = .ok)) ∧
    (post 0 = .netError →
      (create_transcription_page post database_id titleProperty text timestamp duration
        enhanced_text pn voiceink_id).1 = none ∧
      (create_transcription_page post database_id titleProperty text timestamp duration
        enhanced_text pn voiceink_id).2 =
        [fullPayload database_id titleProperty text timestamp duration enhanced_text
          voiceink_id]) ∧
    (∀ (l : List Transcription) (upload : Nat → Bool) (clock : Nat → Nat) (st : SyncState)
        (idx count : Nat),
      uploadedIds (drainLoop upload clock l st idx count).events = l.map Transcription.id) := by
  refine ⟨fun h0 => ?_, fun h0 => ?_,
    fun l upload clock st idx count => drainLoop_all_attempted upload clock l st idx count⟩
  · refine ⟨?_, rfl, ?_⟩
    · simp [create_transcription_page, h0]
      cases h1 : post 1 <;> rfl
    · simp only [create_transcription_page, h0]
      cases h1 : post 1 <;> simp [h1]
  · simp [create_transcription_page, h0]

theorem upload_retry_amended_witness :
    ((fun _ => PostOutcome.badStatus) 0 = PostOutcome.badStatus) ∧
    ((create_transcription_page (fun _ => .badStatus) "db" "Name" "hi".data 3 1 none none
        (some "vid")).2 =
      [fullPayload "db" "Name" "hi".data 3 1 none (some "vid"),
       minimalPayload "db" "Name" "hi".data none] ∧
     (minimalPayload "db" "Name" "hi".data none).properties =
       [.titleProp "Name" (buildTitle "hi".data)] ∧
     ((create_transcription_page (fun _ => .badStatus) "db" "Name" "hi".data 3 1 none none
        (some "vid")).1 = some () ↔ (fun _ => PostOutcome.badStatus) 1 = .ok)) :=
  ⟨rfl, (upload_retry_amended (fun _ => .badStatus) "db" "Name" "hi".data 3 1 none none
    (some "vid")).1 rfl⟩

theorem chunkText_expand (s : List Char) :
    chunkText s = if s.isEmpty then [] else s.take 2000 :: chunkText (s.drop 2000) := by
  rw [chunkText]
  by_cases h : s.isEmpty <;> simp [h]

theorem chunkText_length_le (s : List Char) : ∀ c ∈ chunkText s, c.length ≤ 2000 := by
  rw [chunkText_expand]
  by_cases he : s.isEmpty
  · simp [he]
  · have hne : s ≠ [] := fun hnil => he (by simp [hnil])
    rw [if_neg he]
    intro c hc
    rcases List.mem_cons.mp hc with h1 | h2
    · subst h1
      simp [List.length_take]
    · exact chunkText_length_le (s.drop 2000) c h2
termination_by s.length
decreasing_by
  have : 0 < s.length := List.length_pos.mpr hne
  simp only [List.length_drop]
  omega

/-- C8: text chunking — a 4500-unit text yields exactly chunks of sizes
2000/2000/500, every chunk is at most 2000 units, and both POST bodies cap
their content-block list at 100 blocks (excess blocks are dropped, never a
reason for rejection). -/
theorem text_chunking :
    (∀ text : List Char, text.length = 4500 →
      (chunkText text).map List.length = [2000, 2000, 500]) ∧
    (∀ (text c : List Char), c ∈ chunkText text → c.length ≤ 2000) ∧
    (∀ (db tp : String) (text : List Char) (ts : Nat) (dur : Rat)
        (enh : Option (List Char)) (vid : Option String),
      (fullPayload db tp text ts dur enh vid).children.length ≤ 100 ∧
      (minimalPayload db tp text enh).children.length ≤ 100) := by
  refine ⟨?_, fun text c hc => chunkText_length_le text c hc,
    fun db tp text ts dur enh vid =>
      ⟨List.length_take_le 100 _, List.length_take_le 100 _⟩⟩
  intro text ht
  have hne : text ≠ [] := by intro hnil; rw [hnil] at ht; simp at ht
  have he1 : ¬(text.isEmpty = true) := fun h => hne (by simpa using h)
  have hd1 : (text.drop 2000).length = 2500 := by simp [ht]
  have hne2 : text.drop 2000 ≠ [] := by
    intro hnil; rw [hnil] at hd1; simp at hd1
  have he2 : ¬((text.drop 2000).isEmpty = true) := fun h => hne2 (by simpa using h)
  have hd2 : ((text.drop 2000).drop 2000).length = 500 := by simp [ht]
  have hne3 : (text.drop 2000).drop 2000 ≠ [] := by
    intro hnil; rw [hnil] at hd2; simp at hd2
  have he3 : ¬(((text.drop 2000).drop 2000).isEmpty = true) := fun h => hne3 (by simpa using h)
  have hd3 : (((text.drop 2000).drop 2000).drop 2000) = [] := by
    apply List.eq_nil_of_length_eq_zero
    simp [ht]
  rw [chunkText_expand, if_neg he1, chunkText_expand (text.drop 2000), if_neg he2,
    chunkText_expand ((text.drop 2000).drop 2000), if_neg he3, hd3, chunkText_expand]
  simp [List.length_take, ht, hd1, hd2]

theorem text_chunking_witness :
    (List.replicate 4500 'a').length = 4500 ∧
    (chunkText (List.replicate 4500 'a')).map List.length = [2000, 2000, 500] :=
  ⟨by rw [List.length_replicate], text_chunking.1 (List.replicate 4500 'a')
    (by rw [List.length_replicate])⟩

theorem natToDec_length_le (n : Nat) (h : n < 2 ^ 63) : (natToDec n).length ≤ 19 := by
  by_cases h0 : n = 0
  · subst h0; simp [natToDec]
  · unfold natToDec
    rw [if_neg h0]
    simp only [List.length_reverse, List.length_map]
    by_contra hgt
    push_neg at hgt
    have h20 : 20 ≤ (Nat.digits 10 n).length := hgt
    have hpow : (10 : ℕ) ^ (Nat.digits 10 n).length ≤ 10 * n :=
      Nat.base_pow_length_digits_le 10 n (by norm_num) h0
    have hmono : (10 : ℕ) ^ 20 ≤ 10 ^ (Nat.digits 10 n).length :=
      Nat.pow_le_pow_right (by norm_num) h20
    have hfin : (100000000000000000000 : ℕ) ≤ 10 * n := by
      have e1 : (10 : ℕ) ^ 20 = 100000000000000000000 := by norm_num
      exact e1 ▸ hmono.trans hpow
    have e2 : (2 : ℕ) ^ 63 = 9223372036854775808 := by norm_num
    rw [e2] at h
    omega

/-- C9: id derivation — every 32-character source identifier is rewritten
into the dashed 8-4-4-4-12 form (slices [:8], [8:12], [12:16], [16:20],
[20:] joined by dashes; the spec's example included), and with no hex
identifier present the id is the row's primary key rendered in decimal
(whose length, for any SQLite 64-bit rowid, can never hit the 32-character
dashing condition). -/
theorem id_formatting :
    (∀ (h : List Char) (z_pk : Nat), h.length = 32 →
      formatRecordId (some h) z_pk =
        h.take 8 ++ '-' :: (h.drop 8).take 4 ++ '-' :: (h.drop 12).take 4
          ++ '-' :: (h.drop 16).take 4 ++ '-' :: h.drop 20) ∧
    formatRecordId (some ("1234567890abcdef1234567890abcdef".data)) 99 =
      "12345678-90ab-cdef-1234-567890abcdef".data ∧
    (∀ z_pk : Nat, z_pk < 2 ^ 63 → formatRecordId none z_pk = natToDec z_pk) := by
  refine ⟨?_, rfl, ?_⟩
  · intro h z_pk hlen
    have hne : ¬(h.isEmpty = true) := by
      intro he
      have : h = [] := by simpa using he
      rw [this] at hlen
      simp at hlen
    simp only [formatRecordId]
    rw [if_neg hne, if_pos hlen]
  · intro pk hpk
    have hlen : (natToDec pk).length ≤ 19 := natToDec_length_le pk hpk
    simp only [formatRecordId]
    rw [if_neg (by omega)]

theorem id_formatting_witness :
    (("1234567890abcdef1234567890abcdef".data).length = 32 ∧
      formatRecordId (some ("1234567890abcdef1234567890abcdef".data)) 99 =
        ("1234567890abcdef1234567890abcdef".data).take 8
          ++ '-' :: (("1234567890abcdef1234567890abcdef".data).drop 8).take 4
          ++ '-' :: (("1234567890abcdef1234567890abcdef".data).drop 12).take 4
          ++ '-' :: (("1234567890abcdef1234567890abcdef".data).drop 16).take 4
          ++ '-' :: ("1234567890abcdef1234567890abcdef".data).drop 20) ∧
    ((7 : Nat) < 2 ^ 63 ∧ formatRecordId none 7 = natToDec 7) :=
  ⟨⟨by decide, id_formatting.1 ("1234567890abcdef1234567890abcdef".data) 99 (by decide)⟩,
   ⟨by norm_num, id_formatting.2.2 7 (by norm_num)⟩⟩

end VSync
